import Mathlib

/-!
# Verification of the effect-size normalization and pooling engine

Shallow embedding of the core of meta_analyzer.py (type canonicalization,
CI-to-SE derivation, the CI-imputation pass, the readiness gate and the
DerSimonian-Laird pooling engine), together with proofs settling the frozen
claims about it.

Modelling conventions:
* JSON numeric fields pass through coerce_float, which yields a float or NaN
  (NaN for None, empty/unparsable strings).  A coerced value is modelled as
  `Option ℚ` - `none` for NaN ("missing"), `some q` for a finite number.
  Exact rationals stand in for binary floating point; none of the claims
  settled over ℚ depends on rounding.
* Inside the pooling arithmetic (numpy arrays) division by zero and
  overflow produce IEEE infinities and NaNs rather than raising.  That part
  is modelled by the type `FloatR` (a real number, +inf, -inf or NaN) with
  IEEE-754 special-value arithmetic; the real component is exact.
* Python str.strip / str.upper / str.lower are modelled on the character
  list of the string (ASCII case mapping, Python whitespace set).
-/

namespace MetaAnalyzer

/-- The fixed critical value, `Z = 1.96` in the source. -/
def Zq : ℚ := 196 / 100

/-! ## Python string helpers -/

/-- The whitespace characters stripped by Python str.strip(). -/
def isPySpace (c : Char) : Bool :=
  c = ' ' || c = '\t' || c = '\n' || c = '\x0d' || c = '\x0b' || c = '\x0c'

/-- Python str.strip(): remove leading and trailing whitespace. -/
def pyStrip (s : String) : String :=
  String.mk (((s.data.dropWhile isPySpace).reverse.dropWhile isPySpace).reverse)

/-- Python str.upper() restricted to ASCII case mapping. -/
def pyUpper (s : String) : String :=
  String.mk (s.data.map Char.toUpper)

/-- Python str.lower() restricted to ASCII case mapping. -/
def pyLower (s : String) : String :=
  String.mk (s.data.map Char.toLower)

/-- Python substring test "tok in s". -/
def strContains (s tok : String) : Bool :=
  decide (tok.data <:+: s.data)

/-! ## se_from_ci and the readiness gate (source lines 218-257, 336-343)

`coerce_float` maps missing or unparsable input to NaN and is otherwise the
identity on numbers; its output is modelled as `Option ℚ`, so the two
`np.isnan` tests in the source become `Option` matches. -/

/-- Embedding of `se_from_ci(ci_low, ci_high)`:
NaN if either coerced bound is NaN, otherwise `(hi - lo) / (2 * Z)`. -/
def se_from_ci (ci_low ci_high : Option ℚ) : Option ℚ :=
  match ci_low, ci_high with
  | some lo, some hi => some ((hi - lo) / (2 * Zq))
  | _, _ => none

/-- Embedding of `MetaAnalyzer.readiness_reason(estimate, ci_low, ci_high)`. -/
def readiness_reason (estimate ci_low ci_high : Option ℚ) : String :=
  match estimate with
  | none => "No effect estimate"
  | some _ =>
    match se_from_ci ci_low ci_high with
    | none => "Missing CI (or unparsable)"
    | some _ => "Ready"

/-! ## normalize_type (source lines 232-250) -/

/-- The fixed alias table of `normalize_type`. -/
def aliases : List (String × String) :=
  [("MEAN DIFFERENCE", "MD"),
   ("STANDARDIZED MEAN DIFFERENCE", "SMD"),
   ("HEDGE\x27S G", "SMD"),
   ("HEDGES G", "SMD"),
   ("COHEN D", "SMD"),
   ("COHEN\x27S D", "SMD"),
   ("RISK RATIO", "RR"),
   ("ODDS RATIO", "OR"),
   ("HAZARD RATIO", "HR"),
   ("LOG(RR)", "LOGRR"),
   ("LOG(OR)", "LOGOR"),
   ("LOG(HR)", "LOGHR")]

/-- Embedding of `normalize_type(t)`: `None -> None`; otherwise strip and
uppercase the label, then look it up in the alias table, defaulting to the
label itself (`aliases.get(t, t)`). -/
def normalize_type (t : Option String) : Option String :=
  match t with
  | none => none
  | some s =>
    let u := pyUpper (pyStrip s)
    some ((((aliases.find? (fun p => p.1 == u)).map Prod.snd)).getD u)

/-! ## IEEE special-value arithmetic (numpy float semantics)

The pooling arithmetic runs on numpy float arrays, where division by zero
yields an infinity (with a warning, not an exception), inf - inf, 0 * inf
and inf / inf yield NaN, and any comparison involving NaN is false.
`FloatR` models a float as an exact real number or one of the three special
values; arithmetic on the real component is exact (rounding is not
modelled), the special values follow IEEE-754.  Negative zero is not
representable; the quantities divided by in the source are sums of squares,
which carry the sign of +0. -/

inductive FloatR where
  | num : ℝ → FloatR
  | inf : FloatR
  | ninf : FloatR
  | nan : FloatR

namespace FloatR

noncomputable section
open Classical

/-- IEEE negation. -/
def neg : FloatR → FloatR
  | num a => num (-a)
  | inf => ninf
  | ninf => inf
  | nan => nan

/-- IEEE addition. -/
def add : FloatR → FloatR → FloatR
  | nan, _ => nan
  | _, nan => nan
  | inf, ninf => nan
  | ninf, inf => nan
  | inf, _ => inf
  | _, inf => inf
  | ninf, _ => ninf
  | _, ninf => ninf
  | num a, num b => num (a + b)

/-- IEEE subtraction, a + (-b). -/
def sub (a b : FloatR) : FloatR := add a (neg b)

/-- IEEE multiplication. -/
def mul : FloatR → FloatR → FloatR
  | nan, _ => nan
  | _, nan => nan
  | num a, num b => num (a * b)
  | inf, inf => inf
  | inf, ninf => ninf
  | ninf, inf => ninf
  | ninf, ninf => inf
  | inf, num b => if 0 < b then inf else if b < 0 then ninf else nan
  | num a, inf => if 0 < a then inf else if a < 0 then ninf else nan
  | ninf, num b => if 0 < b then ninf else if b < 0 then inf else nan
  | num a, ninf => if 0 < a then ninf else if a < 0 then inf else nan

/-- IEEE division (divisor zero is +0: sums of squares in the source). -/
def div : FloatR → FloatR → FloatR
  | nan, _ => nan
  | _, nan => nan
  | num a, num b =>
      if b = 0 then (if a = 0 then nan else if 0 < a then inf else ninf)
      else num (a / b)
  | num _, inf => num 0
  | num _, ninf => num 0
  | inf, num b => if 0 ≤ b then inf else ninf
  | ninf, num b => if 0 ≤ b then ninf else inf
  | inf, inf => nan
  | inf, ninf => nan
  | ninf, inf => nan
  | ninf, ninf => nan

/-- x ** 2. -/
def sq : FloatR → FloatR
  | num a => num (a ^ 2)
  | inf => inf
  | ninf => inf
  | nan => nan

/-- x ** 0.5 (numpy yields NaN, with a warning, on a negative argument). -/
def sqrtF : FloatR → FloatR
  | num a => if a < 0 then nan else num (Real.sqrt a)
  | inf => inf
  | ninf => nan
  | nan => nan

/-- Strict greater-than; false whenever NaN is involved. -/
def pygt : FloatR → FloatR → Prop
  | num a, num b => b < a
  | inf, num _ => True
  | inf, ninf => True
  | num _, ninf => True
  | _, _ => False

/-- Python max(a, b): returns b exactly when b > a (so max(0.0, NaN) = 0.0). -/
def pymax (a b : FloatR) : FloatR := if pygt b a then b else a

/-- np.sum (0.0 on the empty array). -/
def sum (l : List FloatR) : FloatR := l.foldr add (num 0)

/-- Is the value an ordinary (finite) float? -/
def isNum : FloatR → Prop
  | num _ => True
  | _ => False

end

end FloatR

/-! ## dersimonian_laird (source lines 312-334)

The helper definitions below are the successive local variables of
`MetaAnalyzer.dersimonian_laird` (w, fixed, q, c, tau2, w_star, pooled,
se_pooled, ci, I2), evaluated in numpy float semantics. -/

noncomputable section
open scoped Classical

/-- Z = 1.96 as a real number. -/
noncomputable def Zr : ℝ := (Zq : ℝ)

/-- w = 1.0 / (ses ** 2). -/
noncomputable def dlW (ses : List FloatR) : List FloatR :=
  ses.map (fun s => FloatR.div (.num 1) (FloatR.sq s))

/-- fixed = np.sum(w * ests) / np.sum(w). -/
noncomputable def dlFixed (ests ses : List FloatR) : FloatR :=
  .div (FloatR.sum (List.zipWith FloatR.mul (dlW ses) ests))
    (FloatR.sum (dlW ses))

/-- q = np.sum(w * (ests - fixed) ** 2). -/
noncomputable def dlQ (ests ses : List FloatR) : FloatR :=
  FloatR.sum (List.zipWith
    (fun wi ei => FloatR.mul wi (FloatR.sq (FloatR.sub ei (dlFixed ests ses))))
    (dlW ses) ests)

/-- c = np.sum(w) - (np.sum(w ** 2) / np.sum(w)) (k > 1 branch). -/
noncomputable def dlC (ses : List FloatR) : FloatR :=
  .sub (FloatR.sum (dlW ses))
    (.div (FloatR.sum ((dlW ses).map FloatR.sq)) (FloatR.sum (dlW ses)))

/-- tau2 = 0.0 if k <= 1 else max(0.0, (q - (k - 1)) / c). -/
noncomputable def dlTau2 (ests ses : List FloatR) : FloatR :=
  if ests.length ≤ 1 then .num 0
  else FloatR.pymax (.num 0)
    (.div (.sub (dlQ ests ses) (.num ((ests.length : ℝ) - 1))) (dlC ses))

/-- w_star = w if k <= 1 else 1.0 / (ses ** 2 + tau2). -/
noncomputable def dlWstar (ests ses : List FloatR) : List FloatR :=
  if ests.length ≤ 1 then dlW ses
  else ses.map (fun s => FloatR.div (.num 1) (.add (FloatR.sq s) (dlTau2 ests ses)))

/-- pooled = np.sum(w_star * ests) / np.sum(w_star). -/
noncomputable def dlPooled (ests ses : List FloatR) : FloatR :=
  .div (FloatR.sum (List.zipWith FloatR.mul (dlWstar ests ses) ests))
    (FloatR.sum (dlWstar ests ses))

/-- se_pooled = (1.0 / np.sum(w_star)) ** 0.5. -/
noncomputable def dlSePooled (ests ses : List FloatR) : FloatR :=
  FloatR.sqrtF (.div (.num 1) (FloatR.sum (dlWstar ests ses)))

/-- I2 = max(0.0, (q - (k - 1)) / q) * 100.0 if k > 1 and q > 0 else 0.0. -/
noncomputable def dlI2 (ests ses : List FloatR) : FloatR :=
  if 1 < ests.length ∧ FloatR.pygt (dlQ ests ses) (.num 0) then
    .mul (FloatR.pymax (.num 0)
      (.div (.sub (dlQ ests ses) (.num ((ests.length : ℝ) - 1))) (dlQ ests ses)))
      (.num 100)
  else .num 0

/-- Embedding of `MetaAnalyzer.dersimonian_laird(ests, ses)`:
returns (pooled, (pooled - Z*se_pooled, pooled + Z*se_pooled), tau2, I2). -/
noncomputable def dersimonian_laird (ests ses : List FloatR) :
    FloatR × (FloatR × FloatR) × FloatR × FloatR :=
  (dlPooled ests ses,
   (.sub (dlPooled ests ses) (.mul (.num Zr) (dlSePooled ests ses)),
    .add (dlPooled ests ses) (.mul (.num Zr) (dlSePooled ests ses))),
   dlTau2 ests ses,
   dlI2 ests ses)

/-! ## The DerSimonian-Laird algorithm as stated by the spec

Spec 4.5 step 3, in exact real arithmetic: weights w_i = 1/SE_i^2;
fixed-effect mean = sum(w*e)/sum(w); Q = sum(w*(e - fixed)^2); if k = 1,
tau2 = 0, else C = sum(w) - sum(w^2)/sum(w) and
tau2 = max(0, (Q - (k-1))/C); random-effects weights w*_i = 1/(SE_i^2 + tau2);
pooled = sum(w* e)/sum(w*); SE_pooled = sqrt(1/sum(w*));
CI = pooled -+ Z*SE_pooled; I2 = max(0, (Q - (k-1))/Q)*100 if k > 1 and
Q > 0 else 0. -/

/-- Spec: weights w_i = 1/SE_i^2. -/
def specW (ses : List ℝ) : List ℝ := ses.map (fun s => 1 / s ^ 2)

/-- Spec: fixed-effect mean = sum(w_i e_i) / sum(w_i). -/
noncomputable def specFixed (ests ses : List ℝ) : ℝ :=
  (List.zipWith (fun w e => w * e) (specW ses) ests).sum / (specW ses).sum

/-- Spec: Cochran Q = sum(w_i (e_i - fixed)^2). -/
noncomputable def specQ (ests ses : List ℝ) : ℝ :=
  (List.zipWith (fun w e => w * (e - specFixed ests ses) ^ 2) (specW ses) ests).sum

/-- Spec: C = sum(w) - sum(w^2)/sum(w). -/
noncomputable def specC (ses : List ℝ) : ℝ :=
  (specW ses).sum - ((specW ses).map (fun w => w ^ 2)).sum / (specW ses).sum

/-- Spec: if k = 1 then tau2 = 0 else tau2 = max(0, (Q - (k-1)) / C). -/
noncomputable def specTau2 (ests ses : List ℝ) : ℝ :=
  if ests.length = 1 then 0
  else max 0 ((specQ ests ses - ((ests.length : ℝ) - 1)) / specC ses)

/-- Spec: random-effects weights w*_i = 1/(SE_i^2 + tau2). -/
noncomputable def specWstar (ests ses : List ℝ) : List ℝ :=
  ses.map (fun s => 1 / (s ^ 2 + specTau2 ests ses))

/-- Spec: pooled = sum(w*_i e_i) / sum(w*_i). -/
noncomputable def specPooled (ests ses : List ℝ) : ℝ :=
  (List.zipWith (fun w e => w * e) (specWstar ests ses) ests).sum /
    (specWstar ests ses).sum

/-- Spec: SE_pooled = sqrt(1/sum(w*_i)). -/
noncomputable def specSEPooled (ests ses : List ℝ) : ℝ :=
  Real.sqrt (1 / (specWstar ests ses).sum)

/-- Spec: I2 = max(0, (Q - (k-1))/Q)*100 when k > 1 and Q > 0, else 0. -/
noncomputable def specI2 (ests ses : List ℝ) : ℝ :=
  if 1 < ests.length ∧ 0 < specQ ests ses then
    max 0 ((specQ ests ses - ((ests.length : ℝ) - 1)) / specQ ests ses) * 100
  else 0

/-- The DerSimonian-Laird computation exactly as the spec words it. -/
noncomputable def DL_from_spec (ests ses : List ℝ) : ℝ × (ℝ × ℝ) × ℝ × ℝ :=
  (specPooled ests ses,
   (specPooled ests ses - Zr * specSEPooled ests ses,
    specPooled ests ses + Zr * specSEPooled ests ses),
   specTau2 ests ses,
   specI2 ests ses)

/-- Lift a real result quadruple into float values. -/
def numQuad (r : ℝ × (ℝ × ℝ) × ℝ × ℝ) : FloatR × (FloatR × FloatR) × FloatR × FloatR :=
  (.num r.1, (.num r.2.1.1, .num r.2.1.2), .num r.2.2.1, .num r.2.2.2)

/-! ### The float computation coincides with the spec arithmetic when every
standard error is a nonzero number -/


end

/-! ## pool_groups (source lines 272-310, 378-433)

An effect row as loaded by load_effect_rows, restricted to the columns the
pooling stage reads (outcome, type, estimate, ci_low, ci_high, unit; the
remaining columns - file, study_id, design, species, timepoint_weeks,
p_value, adjusted, model_notes - never influence pooling).  The derived SE
and readiness columns of build_effects are recomputed on demand, which is
how pool_groups itself consumes them. -/

structure Effect where
  outcome : Option String
  etype : Option String
  estimate : Option ℚ
  ci_low : Option ℚ
  ci_high : Option ℚ
  unit : Option String
deriving DecidableEq

/-- The pandas groupby key (outcome, type). -/
def keyOf (e : Effect) : Option String × Option String := (e.outcome, e.etype)

/-- The derived SE column of build_effects. -/
def seOf (e : Effect) : Option ℚ := se_from_ci e.ci_low e.ci_high

/-- g_ready: the rows with readiness "Ready", then
dropna(subset=["estimate", "SE"]). -/
def readyRows (g : List Effect) : List Effect :=
  (g.filter (fun e => readiness_reason e.estimate e.ci_low e.ci_high == "Ready")).filter
    (fun e => e.estimate.isSome && (seOf e).isSome)

/-- The distinct non-empty unit strings of a group:
[u for u in group["unit"].dropna().unique() if str(u).strip() != ""].
pandas unique keeps the first occurrence of each value while List.dedup
keeps the last; only the set and its size matter to the callers proved
about here. -/
def unitsOf (gr : List Effect) : List String :=
  ((gr.filterMap Effect.unit).dedup).filter (fun u => pyStrip u != "")

/-- Embedding of `MetaAnalyzer.unit_consistent(group)`. -/
def unit_consistent (gr : List Effect) : Bool × Option String :=
  if (unitsOf gr).length ≤ 1 then (true, (unitsOf gr).head?) else (false, none)

/-- One row of the pooled_summary table. -/
structure PooledRow where
  outcome : Option String
  etype : Option String
  k : ℕ
  pooled : FloatR
  ci_low : FloatR
  ci_high : FloatR
  tau2 : FloatR
  I2 : FloatR
  unit : Option String
  note : String

/-- The successfully pooled row ("OK"). -/
def okRow (outcome etype : Option String) (k : ℕ) (unit : Option String)
    (r : FloatR × (FloatR × FloatR) × FloatR × FloatR) : PooledRow :=
  ⟨outcome, etype, k, r.1, r.2.1.1, r.2.1.2, r.2.2.1, r.2.2.2, unit, "OK"⟩

/-- Embedding of the body of the pool_groups loop for one (outcome, type)
group.  minK is the module-level constant MIN_K the source consults at line
399 (2 in the script block at the bottom of the file); the analyzer's own
self.min_k, set in __init__, is never read by pool_groups. -/
noncomputable def poolGroup (minK : ℕ) (outcome etype : Option String)
    (g : List Effect) : PooledRow :=
  if (unit_consistent (readyRows g)).1 = false then
    ⟨outcome, etype, (readyRows g).length, .nan, .nan, .nan, .nan, .nan, none,
      "Unit mismatch within group; skipping pooling"⟩
  else if (readyRows g).length < minK then
    ⟨outcome, etype, (readyRows g).length, .nan, .nan, .nan, .nan, .nan,
      (unit_consistent (readyRows g)).2,
      "Less than min-k (" ++ toString minK ++ "); skipping pooling"⟩
  else
    okRow outcome etype (readyRows g).length (unit_consistent (readyRows g)).2
      (dersimonian_laird
        (((readyRows g).filterMap Effect.estimate).map
          (fun q => FloatR.num (Rat.cast q)))
        (((readyRows g).filterMap seOf).map (fun q => FloatR.num (Rat.cast q))))

/-- The observed (outcome, type) keys.  pandas groupby enumerates each
observed key exactly once (in sorted order; order is irrelevant to the
claims proved here). -/
def groupKeys (effects : List Effect) : List (Option String × Option String) :=
  (effects.map keyOf).dedup

/-- Embedding of `MetaAnalyzer.pool_groups`: one PooledRow per observed
(outcome, type) group. -/
noncomputable def pool_groups (minK : ℕ) (effects : List Effect) : List PooledRow :=
  (groupKeys effects).map
    (fun key => poolGroup minK key.1 key.2 (effects.filter (fun e => keyOf e == key)))

/-! ### Concrete groups used by witnesses and counterexamples -/

/-- Two Ready records whose first has a zero-width CI, hence SE = 0:
weights hit 1/0 = inf in numpy and the pooled value degrades to NaN. -/
def c3_group : List Effect :=
  [⟨some "HbA1c", some "MD", some 1, some 0, some 0, none⟩,
   ⟨some "HbA1c", some "MD", some 2, some 0, some 4, none⟩]

/-- Two Ready records with nonzero SEs and no units. -/
def c3w_group : List Effect :=
  [⟨some "HbA1c", some "MD", some 1, some 0, some 2, none⟩,
   ⟨some "HbA1c", some "MD", some 2, some 1, some 3, none⟩]

/-- Two Ready records with mismatched units kg and mg. -/
def c4_group : List Effect :=
  [⟨some "Weight", some "MD", some 1, some 0, some 2, some "kg"⟩,
   ⟨some "Weight", some "MD", some 2, some 1, some 3, some "mg"⟩]

/-- Two Ready unit-consistent records (a group of size 2). -/
def c5_group : List Effect :=
  [⟨some "Weight", some "MD", some 1, some 0, some 2, none⟩,
   ⟨some "Weight", some "MD", some 2, some 1, some 3, none⟩]

/-! ## _impute_ci_from_raw (source lines 23-216)

A raw arm-level row (outcomes_raw).  The numeric fields are shown after the
coercions _f (float-or-None, modelled Option ℚ) and _i (int-or-None,
modelled Option ℤ). -/

structure RawRow where
  arm_name : Option String
  n : Option ℤ
  followup_mean : Option ℚ
  followup_sd : Option ℚ
  change_mean : Option ℚ
  change_sd : Option ℚ
  units : Option String
deriving DecidableEq

/-- The obvious control markers of _classify_arm. -/
def control_tokens : List String :=
  ["placebo", "control", "standard care", "usual care", "no treatment",
   "non-use", "non use"]

/-- The fixed drug-name lexicon of _classify_arm. -/
def intervention_tokens : List String := ["resveratrol", "metformin"]

/-- Embedding of `_classify_arm(arm_name, exposure_label, comparator_label)`:
control markers (tokens or the comparator label) are tested first, then the
exposure label, then the drug-name lexicon. -/
def classify_arm (arm_name exposure_label comparator_label : Option String) :
    Option String :=
  let s := pyLower (arm_name.getD "")
  let expl := pyLower (exposure_label.getD "")
  let compl := pyLower (comparator_label.getD "")
  if control_tokens.any (fun tok => strContains s tok) ||
      (compl != "" && strContains s compl) then some "control"
  else if expl != "" && strContains s expl then some "intervention"
  else if intervention_tokens.any (fun tok => strContains s tok) &&
      !(control_tokens.any (fun tok => strContains s tok)) then some "intervention"
  else none

/-- by_arm.setdefault(arm, []).append(r): insertion-ordered map. -/
def insertByArm (acc : List (String × List RawRow)) (a : String) (r : RawRow) :
    List (String × List RawRow) :=
  if acc.any (fun p => p.1 == a) then
    acc.map (fun p => if p.1 == a then (p.1, p.2 ++ [r]) else p)
  else acc ++ [(a, [r])]

/-- The by_arm dict of _pair_stats (rows without a string arm_name skipped). -/
def byArm (rows : List RawRow) : List (String × List RawRow) :=
  rows.foldl
    (fun acc r =>
      match r.arm_name with
      | some a => insertByArm acc a r
      | none => acc)
    []

/-- A row holding the needed mean/sd keys and n. -/
def usable (meanOf sdOf : RawRow → Option ℚ) (r : RawRow) : Bool :=
  (meanOf r).isSome && (sdOf r).isSome && r.n.isSome

/-- The arms dict of _pair_stats: per arm name, the first row that has the
needed fields; arms without such a row are dropped. -/
def armsOf (rows : List RawRow) (meanOf sdOf : RawRow → Option ℚ) :
    List (String × RawRow) :=
  (byArm rows).filterMap
    (fun p => (p.2.find? (usable meanOf sdOf)).map (fun r => (p.1, r)))

/-- The classified dict after the first pass (intervention entry, control
entry); a later row with the same tag overwrites an earlier one. -/
def classifiedOf (arms : List (String × RawRow)) (expo comp : Option String) :
    Option (String × RawRow) × Option (String × RawRow) :=
  arms.foldl
    (fun acc p =>
      if classify_arm (some p.1) expo comp == some "intervention" then
        (some p, acc.2)
      else if classify_arm (some p.1) expo comp == some "control" then
        (acc.1, some p)
      else acc)
    (none, none)

/-- The two-arm fallback of _pair_stats: with exactly two arms, the one
tagged control becomes control and the other intervention; if neither is
tagged control the pairing is abandoned ("last resort: alphabetical, but
skip to avoid wrong sign" - the source returns None instead). -/
def fallback (arms : List (String × RawRow)) (expo comp : Option String) :
    Option ((String × RawRow) × (String × RawRow)) :=
  match arms with
  | [a, b] =>
    if classify_arm (some a.1) expo comp == some "control" then some (b, a)
    else if classify_arm (some b.1) expo comp == some "control" then some (a, b)
    else none
  | _ => none

/-- (intervention, control) resolution: the classified dict when it holds
both tags, otherwise the two-arm fallback. -/
def pickArms (arms : List (String × RawRow)) (expo comp : Option String) :
    Option ((String × RawRow) × (String × RawRow)) :=
  match classifiedOf arms expo comp with
  | (some i, some c) => some (i, c)
  | _ => fallback arms expo comp

/-- Python "a or b" on optional strings (empty string is falsy). -/
def pyOr (a b : Option String) : Option String :=
  match a with
  | some u => if u != "" then some u else b
  | none => b

noncomputable section

/-- Embedding of `_pair_stats(rows, exposure_label, comparator_label,
mean_key, sd_key)`: md = m1 - m0, se = sqrt(s1^2/n1 + s0^2/n0),
returns (md, md - Z*se, md + Z*se, unit).  (Python would raise
ZeroDivisionError on n = 0 and produce a complex power on a negative
variance sum from a negative n; the claims settled here never reach the
arithmetic.) -/
def pair_stats (rows : List RawRow) (expo comp : Option String)
    (meanOf sdOf : RawRow → Option ℚ) : Option (ℝ × ℝ × ℝ × Option String) :=
  if (armsOf rows meanOf sdOf).length < 2 then none
  else
    match pickArms (armsOf rows meanOf sdOf) expo comp with
    | none => none
    | some (i, c) =>
      match meanOf i.2, sdOf i.2, i.2.n, meanOf c.2, sdOf c.2, c.2.n with
      | some m1, some s1, some n1, some m0, some s0, some n0 =>
        let md : ℝ := ((m1 - m0 : ℚ) : ℝ)
        let se : ℝ := Real.sqrt (((s1 ^ 2 / n1 + s0 ^ 2 / n0 : ℚ)) : ℝ)
        some (md, md - Zr * se, md + Zr * se, pyOr i.2.units c.2.units)
      | _, _, _, _, _, _ => none

/-- An effects_by_outcome record as _impute_ci_from_raw reads and writes it. -/
structure EffRec where
  name : Option String
  etype : Option String
  timepoint_weeks : Option ℚ
  estimate : Option ℝ
  ci_low : Option ℝ
  ci_high : Option ℝ
  adjusted : Option Bool
  unit : Option String
  subgroup : Option String
  notes : Option String

/-- round(x, 4).  (Python rounds half-to-even on binary floats; no claim
settled here depends on the rounded value.) -/
def round4 (x : ℝ) : ℝ := (round (x * 10000) : ℤ) / 10000

/-- The record-matching test of the imputation loop:
e.name == name and (e.timepoint == tp or both are None). -/
def matchesKey (nm : Option String) (tp : Option ℚ) (e : EffRec) : Bool :=
  e.name == nm && (e.timepoint_weeks == tp ||
    (e.timepoint_weeks.isNone && tp.isNone))

/-- Filling a matching record whose ci_low and ci_high are both null:
set the bounds, set the estimate only if it is also null, keep a truthy
existing unit, append the imputation note. -/
def fillRec (est lo hi : ℝ) (unit : Option String) (e : EffRec) : EffRec :=
  { e with
    ci_low := some (round4 lo),
    ci_high := some (round4 hi),
    estimate := if e.estimate.isNone then some (round4 est) else e.estimate,
    unit := pyOr e.unit unit,
    notes := some ((e.notes.getD "") ++ " [CI imputed from raw (unadjusted)]") }

/-- The for-loop over effects_by_outcome: fill the first matching record
with both bounds null (then break); report whether one was filled. -/
def fillMatch (nm : Option String) (tp : Option ℚ) (est lo hi : ℝ)
    (unit : Option String) : List EffRec → List EffRec × Bool
  | [] => ([], false)
  | e :: rest =>
    if matchesKey nm tp e && e.ci_low.isNone && e.ci_high.isNone then
      (fillRec est lo hi unit e :: rest, true)
    else
      (e :: (fillMatch nm tp est lo hi unit rest).1,
        (fillMatch nm tp est lo hi unit rest).2)

/-- The appended record of the not-attached branch: an explicitly
unadjusted MD effect. -/
def newRec (nm : Option String) (tp : Option ℚ) (est lo hi : ℝ)
    (unit : Option String) : EffRec :=
  ⟨nm, some "MD", tp, some (round4 est), some (round4 lo), some (round4 hi),
    some false, unit, none, some "Effect computed from raw (unadjusted)"⟩

/-- The per-key update of the effects list (source lines 182-207): fill a
matching record if possible, otherwise append a new one. -/
def imputeKey (nm : Option String) (tp : Option ℚ) (est lo hi : ℝ)
    (unit : Option String) (efs : List EffRec) : List EffRec :=
  if (fillMatch nm tp est lo hi unit efs).2 then (fillMatch nm tp est lo hi unit efs).1
  else (fillMatch nm tp est lo hi unit efs).1 ++ [newRec nm tp est lo hi unit]

/-- One (name, timepoint) key of the imputation pass: pair the raw rows
using follow-up statistics first, then change scores; on failure the
effects list is left untouched. -/
def imputeKeyStep (expo comp : Option String) (nm : Option String) (tp : Option ℚ)
    (rows : List RawRow) (efs : List EffRec) : List EffRec :=
  match (pair_stats rows expo comp RawRow.followup_mean RawRow.followup_sd).orElse
      (fun _ => pair_stats rows expo comp RawRow.change_mean RawRow.change_sd) with
  | none => efs
  | some (est, lo, hi, unit) => imputeKey nm tp est lo hi unit efs

end

/-! ### Concrete inputs for the imputer claims -/

/-- One effect record matching key (name "A", timepoint null) whose CI
bounds are already populated. -/
def c7_efs : List EffRec :=
  [⟨some "A", some "MD", none, some 1, some 1, some 2, some false, none, none,
    none⟩]

/-- One effect record that does not match key (name "B", timepoint null). -/
def c7w_efs : List EffRec :=
  [⟨some "C", some "MD", none, some 5, none, none, none, none, none, none⟩]

/-- Two usable raw arms, neither of which matches a control token, the
declared comparator or any intervention marker. -/
def c10_rows : List RawRow :=
  [⟨some "group one", some 10, some 5, some 1, none, none, some "kg"⟩,
   ⟨some "group two", some 12, some 6, some 1, none, none, some "kg"⟩]

/-! ## Hedges g arm-pair synthesis (spec 4.2)

Modelled from the spec: the Hedges g synthesis is not present under src/ -
it lives in the analyzer variant from which pipeline.py imports
build_study_rows and pool_fixed_inv_var - so the definitions below follow
the formulas of spec section 4.2 verbatim. -/

/-- The synthesized effect record of a Hedges g computation. -/
structure HedgesG where
  g : ℝ
  se : ℝ
  ci_low : ℝ
  ci_high : ℝ
  etype : String
  unit : String

/-- Modelled from the spec: df = n1 + n0 - 2. -/
def hgDf (n1 n0 : ℕ) : ℤ := (n1 : ℤ) + n0 - 2

/-- Modelled from the spec: pooled variance
sp2 = ((n1-1) s1^2 + (n0-1) s0^2) / df. -/
noncomputable def hgSp2 (s1 : ℝ) (n1 : ℕ) (s0 : ℝ) (n0 : ℕ) : ℝ :=
  (((n1 : ℝ) - 1) * s1 ^ 2 + ((n0 : ℝ) - 1) * s0 ^ 2) / ((hgDf n1 n0 : ℤ) : ℝ)

/-- Modelled from the spec: raw difference d = (m1 - m0) / sqrt(sp2). -/
noncomputable def hgD (m1 s1 : ℝ) (n1 : ℕ) (m0 s0 : ℝ) (n0 : ℕ) : ℝ :=
  (m1 - m0) / Real.sqrt (hgSp2 s1 n1 s0 n0)

/-- Modelled from the spec: small-sample correction J = 1 - 3/(4 df - 1). -/
noncomputable def hgJ (n1 n0 : ℕ) : ℝ :=
  1 - 3 / (4 * ((hgDf n1 n0 : ℤ) : ℝ) - 1)

/-- Modelled from the spec:
Var(g) = J^2 ((n1+n0)/(n1 n0) + d^2/(2 df)). -/
noncomputable def hgVar (m1 s1 : ℝ) (n1 : ℕ) (m0 s0 : ℝ) (n0 : ℕ) : ℝ :=
  hgJ n1 n0 ^ 2 *
    (((n1 : ℝ) + n0) / ((n1 : ℝ) * n0) +
      hgD m1 s1 n1 m0 s0 n0 ^ 2 / (2 * ((hgDf n1 n0 : ℤ) : ℝ)))

/-- Modelled from the spec: the Hedges g synthesis fails when df <= 0 or
sp2 <= 0, and otherwise yields g = J d, SE = sqrt(Var(g)), CI = g -+ Z SE,
effect type SMD, unit "SD units". -/
noncomputable def hedges_g (m1 s1 : ℝ) (n1 : ℕ) (m0 s0 : ℝ) (n0 : ℕ) :
    Option HedgesG :=
  if hgDf n1 n0 ≤ 0 then none
  else if hgSp2 s1 n1 s0 n0 ≤ 0 then none
  else
    some ⟨hgJ n1 n0 * hgD m1 s1 n1 m0 s0 n0,
      Real.sqrt (hgVar m1 s1 n1 m0 s0 n0),
      hgJ n1 n0 * hgD m1 s1 n1 m0 s0 n0 -
        Zr * Real.sqrt (hgVar m1 s1 n1 m0 s0 n0),
      hgJ n1 n0 * hgD m1 s1 n1 m0 s0 n0 +
        Zr * Real.sqrt (hgVar m1 s1 n1 m0 s0 n0),
      "SMD", "SD units"⟩

/-- The fill condition as a proposition. -/
def fillCond (nm : Option String) (tp : Option ℚ) (e : EffRec) : Prop :=
  matchesKey nm tp e = true ∧ e.ci_low = none ∧ e.ci_high = none

/-! # Theorems settling the claims -/

namespace FloatR

@[simp] theorem neg_num (a : ℝ) : neg (num a) = num (-a) := rfl

@[simp] theorem add_num (a b : ℝ) : add (num a) (num b) = num (a + b) := rfl

@[simp] theorem sub_num (a b : ℝ) : sub (num a) (num b) = num (a - b) := by
  show num (a + -b) = num (a - b)
  rw [← sub_eq_add_neg]

@[simp] theorem mul_num (a b : ℝ) : mul (num a) (num b) = num (a * b) := rfl

theorem div_num {b : ℝ} (a : ℝ) (h : b ≠ 0) :
    div (num a) (num b) = num (a / b) := by
  simp [div, h]

@[simp] theorem sq_num (a : ℝ) : sq (num a) = num (a ^ 2) := rfl

theorem sqrtF_num {a : ℝ} (h : 0 ≤ a) : sqrtF (num a) = num (Real.sqrt a) := by
  simp [sqrtF, not_lt.mpr h]

theorem pygt_num {a b : ℝ} : pygt (num a) (num b) ↔ b < a := Iff.rfl

theorem pymax_num (a b : ℝ) : pymax (num a) (num b) = num (max a b) := by
  unfold pymax
  by_cases h : pygt (num b) (num a)
  · rw [if_pos h]
    rw [pygt_num] at h
    rw [max_eq_right h.le]
  · rw [if_neg h]
    rw [pygt_num, not_lt] at h
    rw [max_eq_left h]

theorem sum_map_num (l : List ℝ) : sum (l.map num) = num l.sum := by
  induction l with
  | nil => rfl
  | cons a t ih =>
    simp only [List.map_cons, sum, List.foldr_cons, List.sum_cons]
    simp only [sum] at ih
    rw [ih, add_num]

theorem zipWith_num (F : FloatR → FloatR → FloatR) (f : ℝ → ℝ → ℝ)
    (hF : ∀ a b, F (num a) (num b) = num (f a b)) :
    ∀ (l₁ l₂ : List ℝ),
      List.zipWith F (l₁.map num) (l₂.map num) = (List.zipWith f l₁ l₂).map num
  | [], _ => by simp
  | _ :: _, [] => by simp
  | a :: t₁, b :: t₂ => by
    simp only [List.map_cons, List.zipWith_cons_cons, hF]
    rw [zipWith_num F f hF t₁ t₂]

theorem map_sq_num (l : List ℝ) :
    (l.map num).map sq = (l.map (fun x => x ^ 2)).map num := by
  simp [List.map_map, Function.comp_def]

end FloatR

open FloatR in
theorem zipWith_sum_nonneg (f : ℝ → ℝ → ℝ) :
    ∀ (l₁ l₂ : List ℝ), (∀ a ∈ l₁, ∀ b ∈ l₂, 0 ≤ f a b) →
      0 ≤ (List.zipWith f l₁ l₂).sum
  | [], _, _ => by simp
  | _ :: _, [], _ => by simp
  | a :: t₁, b :: t₂, h => by
    simp only [List.zipWith_cons_cons, List.sum_cons]
    have h1 : 0 ≤ f a b := h a (List.mem_cons_self a t₁) b (List.mem_cons_self b t₂)
    have h2 := zipWith_sum_nonneg f t₁ t₂
      (fun x hx y hy => h x (List.mem_cons_of_mem _ hx) y (List.mem_cons_of_mem _ hy))
    linarith

theorem sum_sq_le_sq_sum : ∀ (l : List ℝ), (∀ x ∈ l, 0 ≤ x) →
    (l.map (fun x => x ^ 2)).sum ≤ l.sum ^ 2
  | [], _ => by simp
  | a :: t, h => by
    simp only [List.map_cons, List.sum_cons]
    have ht := sum_sq_le_sq_sum t (fun x hx => h x (List.mem_cons_of_mem _ hx))
    have ha : 0 ≤ a := h a (List.mem_cons_self a t)
    have hts : 0 ≤ t.sum :=
      List.sum_nonneg (fun x hx => h x (List.mem_cons_of_mem _ hx))
    nlinarith

theorem sum_sq_lt_sq_sum (l : List ℝ) (h2 : 2 ≤ l.length)
    (hpos : ∀ x ∈ l, 0 < x) : (l.map (fun x => x ^ 2)).sum < l.sum ^ 2 := by
  match l with
  | [] => simp at h2
  | a :: t =>
    have hne : t ≠ [] := by
      intro h
      subst h
      simp at h2
    simp only [List.map_cons, List.sum_cons]
    have ht := sum_sq_le_sq_sum t (fun x hx => (hpos x (List.mem_cons_of_mem _ hx)).le)
    have hts : 0 < t.sum :=
      List.sum_pos t (fun x hx => hpos x (List.mem_cons_of_mem _ hx)) hne
    have ha : 0 < a := hpos a (List.mem_cons_self a t)
    nlinarith

section DLnum

open FloatR

variable {ests ses : List ℝ}

theorem specW_mem_pos (h0 : ∀ s ∈ ses, s ≠ 0) : ∀ w ∈ specW ses, 0 < w := by
  intro w hw
  simp only [specW, List.mem_map] at hw
  obtain ⟨s, hs, rfl⟩ := hw
  have := h0 s hs
  positivity

theorem specW_sum_pos (hne : ses ≠ []) (h0 : ∀ s ∈ ses, s ≠ 0) :
    0 < (specW ses).sum :=
  List.sum_pos _ (specW_mem_pos h0) (by simpa [specW] using hne)

theorem dlW_num (h0 : ∀ s ∈ ses, s ≠ 0) :
    dlW (ses.map num) = (specW ses).map num := by
  unfold dlW specW
  rw [List.map_map, List.map_map]
  apply List.map_congr_left
  intro s hs
  simp only [Function.comp_apply, sq_num]
  rw [div_num _ (pow_ne_zero 2 (h0 s hs))]

theorem dlFixed_num (hne : ses ≠ []) (h0 : ∀ s ∈ ses, s ≠ 0) :
    dlFixed (ests.map num) (ses.map num) = num (specFixed ests ses) := by
  unfold dlFixed specFixed
  rw [dlW_num h0, zipWith_num FloatR.mul (fun w e => w * e) (fun a b => rfl),
    sum_map_num, sum_map_num, div_num _ (ne_of_gt (specW_sum_pos hne h0))]

theorem dlQ_num (hne : ses ≠ []) (h0 : ∀ s ∈ ses, s ≠ 0) :
    dlQ (ests.map num) (ses.map num) = num (specQ ests ses) := by
  unfold dlQ specQ
  rw [dlFixed_num hne h0, dlW_num h0,
    zipWith_num _ (fun w e => w * (e - specFixed ests ses) ^ 2)
      (fun a b => by simp), sum_map_num]

theorem specQ_nonneg (h0 : ∀ s ∈ ses, s ≠ 0) : 0 ≤ specQ ests ses :=
  zipWith_sum_nonneg _ _ _
    (fun w hw _ _ => mul_nonneg (specW_mem_pos h0 w hw).le (sq_nonneg _))

theorem specC_pos (hk : 2 ≤ ses.length) (h0 : ∀ s ∈ ses, s ≠ 0) :
    0 < specC ses := by
  have hne : ses ≠ [] := by
    intro h
    subst h
    simp at hk
  have hW := specW_sum_pos hne h0
  have hlt := sum_sq_lt_sq_sum (specW ses) (by simpa [specW] using hk)
    (specW_mem_pos h0)
  unfold specC
  rw [sub_pos, div_lt_iff₀ hW]
  nlinarith

theorem dlC_num (hne : ses ≠ []) (h0 : ∀ s ∈ ses, s ≠ 0) :
    dlC (ses.map num) = num (specC ses) := by
  unfold dlC specC
  rw [dlW_num h0, map_sq_num, sum_map_num, sum_map_num,
    div_num _ (ne_of_gt (specW_sum_pos hne h0)), sub_num]

theorem dlTau2_num (hlen : ses.length = ests.length) (hne : ests ≠ [])
    (h0 : ∀ s ∈ ses, s ≠ 0) :
    dlTau2 (ests.map num) (ses.map num) = num (specTau2 ests ses) := by
  have hpos : 0 < ests.length := List.length_pos.mpr hne
  have hne' : ses ≠ [] := by
    intro h
    subst h
    simp at hlen
    omega
  unfold dlTau2 specTau2
  rw [List.length_map]
  by_cases hk : ests.length = 1
  · rw [if_pos (by omega), if_pos hk]
  · rw [if_neg (by omega), if_neg hk]
    rw [dlQ_num hne' h0, dlC_num hne' h0, sub_num,
      div_num _ (ne_of_gt (specC_pos (by omega) h0)), pymax_num]

theorem specTau2_nonneg : 0 ≤ specTau2 ests ses := by
  unfold specTau2
  split
  · exact le_refl 0
  · exact le_max_left 0 _

theorem dlWstar_num (hlen : ses.length = ests.length) (hne : ests ≠ [])
    (h0 : ∀ s ∈ ses, s ≠ 0) :
    dlWstar (ests.map num) (ses.map num) = (specWstar ests ses).map num := by
  have hpos : 0 < ests.length := List.length_pos.mpr hne
  unfold dlWstar
  rw [List.length_map]
  by_cases hk : ests.length ≤ 1
  · rw [if_pos hk]
    have hk1 : ests.length = 1 := by omega
    have ht : specTau2 ests ses = 0 := by
      unfold specTau2
      rw [if_pos hk1]
    rw [dlW_num h0]
    unfold specW specWstar
    rw [ht]
    congr 1
    apply List.map_congr_left
    intro s hs
    rw [add_zero]
  · rw [if_neg hk]
    rw [dlTau2_num hlen hne h0]
    unfold specWstar
    rw [List.map_map, List.map_map]
    apply List.map_congr_left
    intro s hs
    simp only [Function.comp_apply, sq_num, add_num]
    have hs2 : (0:ℝ) < s ^ 2 := by
      have := h0 s hs
      positivity
    have := @specTau2_nonneg ests ses
    rw [div_num _ (by linarith : s ^ 2 + specTau2 ests ses ≠ 0)]

theorem specWstar_sum_pos (hne' : ses ≠ []) (h0 : ∀ s ∈ ses, s ≠ 0) :
    0 < (specWstar ests ses).sum := by
  apply List.sum_pos
  · intro w hw
    simp only [specWstar, List.mem_map] at hw
    obtain ⟨s, hs, rfl⟩ := hw
    have hs2 : (0:ℝ) < s ^ 2 := by
      have := h0 s hs
      positivity
    have := @specTau2_nonneg ests ses
    positivity
  · simpa [specWstar] using hne'

theorem dlPooled_num (hlen : ses.length = ests.length) (hne : ests ≠ [])
    (h0 : ∀ s ∈ ses, s ≠ 0) :
    dlPooled (ests.map num) (ses.map num) = num (specPooled ests ses) := by
  have hne' : ses ≠ [] := by
    intro h
    subst h
    have := List.length_pos.mpr hne
    simp at hlen
    omega
  unfold dlPooled specPooled
  rw [dlWstar_num hlen hne h0, zipWith_num FloatR.mul (fun w e => w * e) (fun a b => rfl),
    sum_map_num, sum_map_num, div_num _ (ne_of_gt (specWstar_sum_pos hne' h0))]

theorem dlSePooled_num (hlen : ses.length = ests.length) (hne : ests ≠ [])
    (h0 : ∀ s ∈ ses, s ≠ 0) :
    dlSePooled (ests.map num) (ses.map num) = num (specSEPooled ests ses) := by
  have hne' : ses ≠ [] := by
    intro h
    subst h
    have := List.length_pos.mpr hne
    simp at hlen
    omega
  have hpos := @specWstar_sum_pos ests ses hne' h0
  unfold dlSePooled specSEPooled
  rw [dlWstar_num hlen hne h0, sum_map_num, div_num _ (ne_of_gt hpos),
    sqrtF_num (by positivity)]

theorem dlI2_num (hlen : ses.length = ests.length) (hne : ests ≠ [])
    (h0 : ∀ s ∈ ses, s ≠ 0) :
    dlI2 (ests.map num) (ses.map num) = num (specI2 ests ses) := by
  have hne' : ses ≠ [] := by
    intro h
    subst h
    have := List.length_pos.mpr hne
    simp at hlen
    omega
  unfold dlI2 specI2
  rw [List.length_map, dlQ_num hne' h0]
  simp only [pygt_num]
  split_ifs with h
  · rw [sub_num, div_num _ (ne_of_gt h.2), pymax_num, mul_num]
  · rfl

/-- The numpy float evaluation of dersimonian_laird on nonzero numeric
standard errors agrees exactly with the spec arithmetic over the reals. -/
theorem dl_num_eq_spec (ests ses : List ℝ) (hlen : ses.length = ests.length)
    (hne : ests ≠ []) (h0 : ∀ s ∈ ses, s ≠ 0) :
    dersimonian_laird (ests.map num) (ses.map num) = numQuad (DL_from_spec ests ses) := by
  unfold dersimonian_laird DL_from_spec numQuad
  simp only
  rw [dlPooled_num hlen hne h0, dlSePooled_num hlen hne h0,
    dlTau2_num hlen hne h0, dlI2_num hlen hne h0, mul_num, sub_num, add_num]

end DLnum

/-- C1: on k >= 1 records with numeric estimates and nonzero (in particular
positive finite) standard errors, dersimonian_laird computes exactly the
DerSimonian-Laird formulas of the spec; and for k = 1 the pooled value is
the single estimate, the CI is estimate -+ 1.96*SE, tau2 = 0 and I2 = 0. -/
theorem C1_dersimonian_laird :
    (∀ ests ses : List ℝ, ses.length = ests.length → ests ≠ [] →
      (∀ s ∈ ses, 0 < s) →
      dersimonian_laird (ests.map FloatR.num) (ses.map FloatR.num) =
        numQuad (DL_from_spec ests ses)) ∧
    (∀ e s : ℝ, 0 < s →
      dersimonian_laird [FloatR.num e] [FloatR.num s] =
        (FloatR.num e, (FloatR.num (e - Zr * s), FloatR.num (e + Zr * s)),
          FloatR.num 0, FloatR.num 0)) := by
  constructor
  · intro ests ses hlen hne hpos
    exact dl_num_eq_spec ests ses hlen hne (fun s hs => ne_of_gt (hpos s hs))
  · intro e s hs
    have hs0 : s ≠ 0 := ne_of_gt hs
    have h := dl_num_eq_spec [e] [s] rfl (by simp)
      (by
        intro x hx
        simp only [List.mem_singleton] at hx
        subst hx
        exact hs0)
    simp only [List.map_cons, List.map_nil] at h
    rw [h]
    have hs2 : s ^ 2 ≠ 0 := pow_ne_zero 2 hs0
    have hfix : specPooled [e] [s] = e := by
      simp only [specPooled, specWstar, specTau2, List.length_singleton, if_pos rfl,
        List.map_cons, List.map_nil, List.zipWith_cons_cons, List.zipWith_nil_right,
        List.sum_cons, List.sum_nil, add_zero]
      field_simp
    have htau : specTau2 [e] [s] = 0 := by
      simp [specTau2]
    have hse : specSEPooled [e] [s] = s := by
      simp only [specSEPooled, specWstar, htau, List.map_cons, List.map_nil,
        List.sum_cons, List.sum_nil, add_zero, one_div_one_div]
      rw [Real.sqrt_sq hs.le]
    have hI2 : specI2 [e] [s] = 0 := by
      simp [specI2]
    simp only [numQuad, DL_from_spec, hfix, htau, hse, hI2]

/-- Witness for C1_dersimonian_laird at the single record (estimate 3, SE 2). -/
theorem C1_dersimonian_laird_witness :
    (0:ℝ) < 2 ∧
    dersimonian_laird [FloatR.num 3] [FloatR.num 2] =
      (FloatR.num 3, (FloatR.num (3 - Zr * 2), FloatR.num (3 + Zr * 2)),
        FloatR.num 0, FloatR.num 0) :=
  ⟨by norm_num, C1_dersimonian_laird.2 3 2 (by norm_num)⟩


/-! ## Claims C2, C6, C9 -/

/-- C2 (counterexample): the claim says se_from_ci is non-negative whenever it
is defined, but on the inverted bounds ci_low = 1, ci_high = 0 the source
returns (0 - 1) / (2 * 1.96) = -25/98 < 0. -/
theorem C2_counterexample :
    se_from_ci (some 1) (some 0) = some (-(25 / 98)) ∧ (-(25 / 98) : ℚ) < 0 := by
  constructor
  · simp [se_from_ci, Zq]; norm_num
  · norm_num

/-- C2 (amended): se_from_ci returns (hi - lo) / (2 * 1.96) whenever both
bounds are numeric, is undefined iff either bound is non-numeric, and its
value is non-negative whenever it is defined AND ci_low <= ci_high. -/
theorem C2_amended (ci_low ci_high : Option ℚ) :
    (se_from_ci ci_low ci_high = none ↔ (ci_low = none ∨ ci_high = none)) ∧
    (∀ lo hi : ℚ, ci_low = some lo → ci_high = some hi →
      se_from_ci ci_low ci_high = some ((hi - lo) / (2 * Zq)) ∧
      (lo ≤ hi → 0 ≤ (hi - lo) / (2 * Zq))) := by
  constructor
  · cases ci_low <;> cases ci_high <;> simp [se_from_ci]
  · rintro lo hi rfl rfl
    refine ⟨rfl, fun hle => ?_⟩
    apply div_nonneg (by linarith)
    norm_num [Zq]

/-- Witness for C2_amended at the concrete bounds (0, 1). -/
theorem C2_amended_witness :
    se_from_ci (some 0) (some 1) = some ((1 - 0) / (2 * Zq)) ∧
      (0 : ℚ) ≤ (1 - 0) / (2 * Zq) := by
  obtain ⟨h1, h2⟩ := (C2_amended (some 0) (some 1)).2 0 1 rfl rfl
  exact ⟨h1, h2 (by norm_num)⟩

/-- C6: a record is Ready iff the estimate is numeric and both CI bounds are
numeric; when not ready, "No effect estimate" takes precedence over
"Missing CI (or unparsable)", including when both are missing. -/
theorem C6_readiness (est lo hi : Option ℚ) :
    (readiness_reason est lo hi = "Ready" ↔
      est.isSome ∧ lo.isSome ∧ hi.isSome) ∧
    (est = none → readiness_reason est lo hi = "No effect estimate") ∧
    (est.isSome → (lo = none ∨ hi = none) →
      readiness_reason est lo hi = "Missing CI (or unparsable)") := by
  cases est <;> cases lo <;> cases hi <;>
    simp [readiness_reason, se_from_ci]

/-- Witness for C6_readiness: precedence at concrete inputs, with both
hypotheses discharged. -/
theorem C6_readiness_witness :
    readiness_reason none none none = "No effect estimate" ∧
    readiness_reason (some 1) none (some 1) = "Missing CI (or unparsable)" :=
  ⟨(C6_readiness none none none).2.1 rfl,
   (C6_readiness (some 1) none (some 1)).2.2 rfl (Or.inl rfl)⟩

/-- C9: normalize_type is case- and (outer) space-insensitive through the
fixed alias table, maps the listed aliases as claimed, passes an
unrecognized label through uppercased, and maps null to null. -/
theorem C9_normalize_type :
    normalize_type none = none ∧
    (∀ s₁ s₂ : String, pyUpper (pyStrip s₁) = pyUpper (pyStrip s₂) →
      normalize_type (some s₁) = normalize_type (some s₂)) ∧
    normalize_type (some "mean difference") = some "MD" ∧
    normalize_type (some "hedges g") = some "SMD" ∧
    normalize_type (some "cohen\x27s d") = some "SMD" ∧
    normalize_type (some "risk ratio") = some "RR" ∧
    normalize_type (some "odds ratio") = some "OR" ∧
    normalize_type (some "hazard ratio") = some "HR" ∧
    normalize_type (some "log(rr)") = some "LOGRR" ∧
    (∀ s : String, (∀ p ∈ aliases, p.1 ≠ pyUpper (pyStrip s)) →
      normalize_type (some s) = some (pyUpper (pyStrip s))) := by
  refine ⟨rfl, ?_, by decide, by decide, by decide, by decide, by decide,
    by decide, by decide, ?_⟩
  · intro s₁ s₂ h
    simp only [normalize_type, h]
  · intro s h
    have hf : aliases.find? (fun p => p.1 == pyUpper (pyStrip s)) = none := by
      rw [List.find?_eq_none]
      intro p hp
      simpa using h p hp
    simp [normalize_type, hf]

/-- Witness for C9_normalize_type: both universally quantified parts applied
at concrete labels. -/
theorem C9_normalize_type_witness :
    normalize_type (some " MD") = normalize_type (some "md") ∧
    normalize_type (some "beta coefficient") = some "BETA COEFFICIENT" := by
  constructor
  · exact (C9_normalize_type).2.1 " MD" "md" (by decide)
  · exact (C9_normalize_type).2.2.2.2.2.2.2.2.2 "beta coefficient" (by decide)


namespace FloatR

@[simp] theorem nan_add (x : FloatR) : add nan x = nan := by cases x <;> rfl

@[simp] theorem add_nan (x : FloatR) : add x nan = nan := by cases x <;> rfl

@[simp] theorem inf_add_num (b : ℝ) : add inf (num b) = inf := rfl

@[simp] theorem num_add_inf (a : ℝ) : add (num a) inf = inf := rfl

@[simp] theorem neg_nan : neg nan = nan := rfl

@[simp] theorem nan_sub (x : FloatR) : sub nan x = nan := by cases x <;> rfl

@[simp] theorem sub_nan (x : FloatR) : sub x nan = nan := by cases x <;> rfl

@[simp] theorem sq_nan : sq nan = nan := rfl

@[simp] theorem sq_inf : sq inf = inf := rfl

@[simp] theorem nan_mul (x : FloatR) : mul nan x = nan := by cases x <;> rfl

@[simp] theorem mul_nan (x : FloatR) : mul x nan = nan := by cases x <;> rfl

theorem inf_mul_num {b : ℝ} (h : 0 < b) : mul inf (num b) = inf := by
  simp [mul, h]

@[simp] theorem nan_div (x : FloatR) : div nan x = nan := by cases x <;> rfl

@[simp] theorem div_nan (x : FloatR) : div x nan = nan := by cases x <;> rfl

@[simp] theorem inf_div_inf : div inf inf = nan := rfl

@[simp] theorem num_div_inf (a : ℝ) : div (num a) inf = num 0 := rfl

theorem num_div_zero {a : ℝ} (h : 0 < a) : div (num a) (num 0) = inf := by
  simp [div, h, h.ne']

@[simp] theorem pygt_nan_left (x : FloatR) : pygt nan x = False := by
  cases x <;> rfl

@[simp] theorem pymax_num_nan (a : ℝ) : pymax (num a) nan = num a := by
  simp [pymax]

end FloatR

section DLse0

open FloatR

/-- The NaN trace of dersimonian_laird on a pair of records whose first
standard error is exactly zero (numpy: 1/0 = inf, inf/inf = NaN,
max(0, NaN) = 0, NaN > 0 false). -/
theorem dl_se0 (e₁ e₂ s : ℝ) (he1 : 0 < e₁) (hs : 0 < s) :
    dersimonian_laird [.num e₁, .num e₂] [.num 0, .num s] =
      (.nan, (.nan, .nan), .num 0, .num 0) := by
  have hs2 : s ^ 2 ≠ 0 := pow_ne_zero 2 hs.ne'
  have hw : dlW [.num 0, .num s] = [.inf, .num (1 / s ^ 2)] := by
    unfold dlW
    simp only [List.map_cons, List.map_nil, sq_num]
    rw [show ((0:ℝ) ^ 2) = 0 by norm_num, num_div_zero one_pos, div_num 1 hs2]
  have hsw : FloatR.sum [FloatR.inf, FloatR.num (1 / s ^ 2)] = FloatR.inf := by
    simp [FloatR.sum]
  have hzw : List.zipWith FloatR.mul [FloatR.inf, FloatR.num (1 / s ^ 2)]
      [FloatR.num e₁, FloatR.num e₂] = [FloatR.inf, FloatR.num (1 / s ^ 2 * e₂)] := by
    simp [inf_mul_num he1]
  have hfix : dlFixed [.num e₁, .num e₂] [.num 0, .num s] = .nan := by
    unfold dlFixed
    rw [hw, hzw, hsw]
    rw [show FloatR.sum [FloatR.inf, FloatR.num (1 / s ^ 2 * e₂)] = FloatR.inf from
      by simp [FloatR.sum]]
    exact inf_div_inf
  have hq : dlQ [.num e₁, .num e₂] [.num 0, .num s] = .nan := by
    unfold dlQ
    rw [hfix, hw]
    simp [FloatR.sum]
  have hC : dlC [.num 0, .num s] = .nan := by
    unfold dlC
    rw [hw, hsw]
    simp [FloatR.sum]
  have htau : dlTau2 [.num e₁, .num e₂] [.num 0, .num s] = .num 0 := by
    unfold dlTau2
    rw [if_neg (by norm_num), hq, hC]
    simp
  have hwstar : dlWstar [.num e₁, .num e₂] [.num 0, .num s] =
      [.inf, .num (1 / (s ^ 2 + 0))] := by
    unfold dlWstar
    rw [if_neg (by norm_num), htau]
    simp only [List.map_cons, List.map_nil, sq_num, add_num]
    rw [show ((0:ℝ) ^ 2 + 0) = 0 by norm_num, num_div_zero one_pos,
      div_num 1 (by positivity)]
  have hpooled : dlPooled [.num e₁, .num e₂] [.num 0, .num s] = .nan := by
    unfold dlPooled
    rw [hwstar]
    rw [show List.zipWith FloatR.mul [FloatR.inf, FloatR.num (1 / (s ^ 2 + 0))]
        [FloatR.num e₁, FloatR.num e₂] =
        [FloatR.inf, FloatR.num (1 / (s ^ 2 + 0) * e₂)] from by simp [inf_mul_num he1]]
    rw [show FloatR.sum [FloatR.inf, FloatR.num (1 / (s ^ 2 + 0) * e₂)] = FloatR.inf
      from by simp [FloatR.sum]]
    rw [show FloatR.sum [FloatR.inf, FloatR.num (1 / (s ^ 2 + 0))] = FloatR.inf from
      by simp [FloatR.sum]]
    exact inf_div_inf
  have hI2 : dlI2 [.num e₁, .num e₂] [.num 0, .num s] = .num 0 := by
    unfold dlI2
    rw [hq, if_neg (fun h => h.2)]
  unfold dersimonian_laird
  rw [hpooled, htau, hI2]
  simp

end DLse0

theorem length_filterMap_eq {α β : Type _} (f : α → Option β) :
    ∀ l : List α, (∀ x ∈ l, (f x).isSome) → (l.filterMap f).length = l.length
  | [], _ => rfl
  | a :: t, h => by
    obtain ⟨b, hb⟩ := Option.isSome_iff_exists.mp (h a (List.mem_cons_self a t))
    simp only [List.filterMap_cons, hb, List.length_cons]
    rw [length_filterMap_eq f t (fun x hx => h x (List.mem_cons_of_mem _ hx))]

theorem readyRows_isSome {g : List Effect} :
    ∀ e ∈ readyRows g, e.estimate.isSome ∧ (seOf e).isSome := by
  intro e he
  unfold readyRows at he
  rw [List.mem_filter] at he
  simpa using he.2

/-- C3 (counterexample): on a group of two Ready records whose first has a
zero-width CI (SE = 0, which the spec itself calls a legitimate readiness
outcome), pool_groups emits a partially-computed row: note "OK" with
pooled, ci_low and ci_high NaN (null) while tau2 and I2 are populated with
0.0 - neither "all fields populated with note OK" nor "all fields null with
a reason" holds. -/
theorem C3_counterexample :
    (poolGroup 2 (some "HbA1c") (some "MD") c3_group).note = "OK" ∧
    (poolGroup 2 (some "HbA1c") (some "MD") c3_group).pooled = FloatR.nan ∧
    (poolGroup 2 (some "HbA1c") (some "MD") c3_group).ci_low = FloatR.nan ∧
    (poolGroup 2 (some "HbA1c") (some "MD") c3_group).ci_high = FloatR.nan ∧
    (poolGroup 2 (some "HbA1c") (some "MD") c3_group).tau2 = FloatR.num 0 ∧
    (poolGroup 2 (some "HbA1c") (some "MD") c3_group).I2 = FloatR.num 0 := by
  have hready : readyRows c3_group = c3_group := by decide
  have huc : unit_consistent c3_group = (true, none) := by decide
  have hests : c3_group.filterMap Effect.estimate = [1, 2] := by
    simp [c3_group, List.filterMap_cons]
  have hses : c3_group.filterMap seOf = [0, 50 / 49] := by
    simp only [c3_group, List.filterMap_cons, seOf, se_from_ci, List.filterMap_nil]
    norm_num [Zq]
  have hrow : poolGroup 2 (some "HbA1c") (some "MD") c3_group =
      okRow (some "HbA1c") (some "MD") c3_group.length (true, none).2
        (FloatR.nan, (FloatR.nan, FloatR.nan), FloatR.num 0, FloatR.num 0) := by
    unfold poolGroup
    rw [hready, huc, if_neg (by decide), if_neg (by decide), hests, hses]
    congr 1
    rw [show ([(1:ℚ), 2].map (fun q => FloatR.num (Rat.cast q))) =
        [FloatR.num 1, FloatR.num 2] from by norm_num,
      show ([(0:ℚ), 50 / 49].map (fun q => FloatR.num (Rat.cast q))) =
        [FloatR.num 0, FloatR.num ((50:ℝ) / 49)] from by norm_num]
    exact dl_se0 1 2 ((50:ℝ) / 49) one_pos (by norm_num)
  rw [hrow]
  exact ⟨rfl, rfl, rfl, rfl, rfl, rfl⟩

/-- C3 (amended): one row is emitted per observed (outcome, type) group, and
each row is all-or-nothing - either note "OK" with every pooled field an
ordinary number, or every pooled field NaN and one of the two specific
rejection notes - provided the configured minimum is at least 1 and no
Ready record of the group has SE = 0 (a Ready record with a zero-width CI
drives numpy through 1/0 and the claim fails; see the counterexample). -/
theorem C3_all_or_nothing :
    (∀ (minK : ℕ) (effects : List Effect),
      (pool_groups minK effects).length = (groupKeys effects).length ∧
      (groupKeys effects).Nodup ∧
      (∀ key, key ∈ groupKeys effects ↔ key ∈ effects.map keyOf)) ∧
    (∀ (minK : ℕ) (outcome etype : Option String) (g : List Effect),
      1 ≤ minK →
      (∀ e ∈ readyRows g, seOf e ≠ some 0) →
      (((poolGroup minK outcome etype g).note = "OK" ∧
        (poolGroup minK outcome etype g).pooled.isNum ∧
        (poolGroup minK outcome etype g).ci_low.isNum ∧
        (poolGroup minK outcome etype g).ci_high.isNum ∧
        (poolGroup minK outcome etype g).tau2.isNum ∧
        (poolGroup minK outcome etype g).I2.isNum) ∨
       ((poolGroup minK outcome etype g).pooled = .nan ∧
        (poolGroup minK outcome etype g).ci_low = .nan ∧
        (poolGroup minK outcome etype g).ci_high = .nan ∧
        (poolGroup minK outcome etype g).tau2 = .nan ∧
        (poolGroup minK outcome etype g).I2 = .nan ∧
        ((poolGroup minK outcome etype g).note =
            "Unit mismatch within group; skipping pooling" ∨
          (poolGroup minK outcome etype g).note =
            "Less than min-k (" ++ toString minK ++ "); skipping pooling")))) := by
  constructor
  · intro minK effects
    refine ⟨?_, List.nodup_dedup _, fun key => List.mem_dedup⟩
    unfold pool_groups
    rw [List.length_map]
  · intro minK outcome etype g hmin hse
    unfold poolGroup
    split_ifs with h1 h2
    · exact Or.inr ⟨rfl, rfl, rfl, rfl, rfl, Or.inl rfl⟩
    · exact Or.inr ⟨rfl, rfl, rfl, rfl, rfl, Or.inr rfl⟩
    · left
      have hall := @readyRows_isSome g
      have hlene : ((readyRows g).filterMap Effect.estimate).length =
          (readyRows g).length :=
        length_filterMap_eq _ _ (fun e he => (hall e he).1)
      have hlens : ((readyRows g).filterMap seOf).length = (readyRows g).length :=
        length_filterMap_eq _ _ (fun e he => (hall e he).2)
      have hkpos : 0 < (readyRows g).length := lt_of_lt_of_le hmin (not_lt.mp h2)
      have hc1 : (((readyRows g).filterMap Effect.estimate).map
          (fun q => FloatR.num (Rat.cast q))) =
          (((readyRows g).filterMap Effect.estimate).map (Rat.cast : ℚ → ℝ)).map
            FloatR.num := by
        rw [List.map_map]
        rfl
      have hc2 : (((readyRows g).filterMap seOf).map
          (fun q => FloatR.num (Rat.cast q))) =
          (((readyRows g).filterMap seOf).map (Rat.cast : ℚ → ℝ)).map FloatR.num := by
        rw [List.map_map]
        rfl
      have hDL := dl_num_eq_spec
        (((readyRows g).filterMap Effect.estimate).map (Rat.cast : ℚ → ℝ))
        (((readyRows g).filterMap seOf).map (Rat.cast : ℚ → ℝ))
        (by rw [List.length_map, List.length_map, hlene, hlens])
        (by
          apply List.ne_nil_of_length_pos
          rw [List.length_map, hlene]
          exact hkpos)
        (by
          intro s hs
          rw [List.mem_map] at hs
          obtain ⟨q, hq, rfl⟩ := hs
          rw [List.mem_filterMap] at hq
          obtain ⟨e, he, heq⟩ := hq
          have hne := hse e he
          rw [heq] at hne
          have : q ≠ 0 := fun h => hne (by rw [h])
          exact_mod_cast this)
      rw [hc1, hc2, hDL]
      exact ⟨rfl, trivial, trivial, trivial, trivial, trivial⟩

/-- Witness for C3_all_or_nothing on a clean group of two records with
nonzero SEs. -/
theorem C3_all_or_nothing_witness :
    (∀ e ∈ readyRows c3w_group, seOf e ≠ some 0) ∧
    (((poolGroup 2 (some "HbA1c") (some "MD") c3w_group).note = "OK" ∧
      (poolGroup 2 (some "HbA1c") (some "MD") c3w_group).pooled.isNum ∧
      (poolGroup 2 (some "HbA1c") (some "MD") c3w_group).ci_low.isNum ∧
      (poolGroup 2 (some "HbA1c") (some "MD") c3w_group).ci_high.isNum ∧
      (poolGroup 2 (some "HbA1c") (some "MD") c3w_group).tau2.isNum ∧
      (poolGroup 2 (some "HbA1c") (some "MD") c3w_group).I2.isNum) ∨
     ((poolGroup 2 (some "HbA1c") (some "MD") c3w_group).pooled = .nan ∧
      (poolGroup 2 (some "HbA1c") (some "MD") c3w_group).ci_low = .nan ∧
      (poolGroup 2 (some "HbA1c") (some "MD") c3w_group).ci_high = .nan ∧
      (poolGroup 2 (some "HbA1c") (some "MD") c3w_group).tau2 = .nan ∧
      (poolGroup 2 (some "HbA1c") (some "MD") c3w_group).I2 = .nan ∧
      ((poolGroup 2 (some "HbA1c") (some "MD") c3w_group).note =
          "Unit mismatch within group; skipping pooling" ∨
        (poolGroup 2 (some "HbA1c") (some "MD") c3w_group).note =
          "Less than min-k (" ++ toString (2:ℕ) ++ "); skipping pooling"))) := by
  have hse : ∀ e ∈ readyRows c3w_group, seOf e ≠ some 0 := by
    intro e he
    rw [show readyRows c3w_group = c3w_group from by decide] at he
    simp only [c3w_group, List.mem_cons, List.not_mem_nil, or_false] at he
    rcases he with rfl | rfl <;>
      norm_num [seOf, se_from_ci, Zq]
  exact ⟨hse, C3_all_or_nothing.2 2 (some "HbA1c") (some "MD") c3w_group
    (by norm_num) hse⟩

section ImputerLemmas

theorem fillCond_iff (nm : Option String) (tp : Option ℚ) (e : EffRec) :
    (matchesKey nm tp e && e.ci_low.isNone && e.ci_high.isNone) = true ↔
      fillCond nm tp e := by
  unfold fillCond
  simp [Bool.and_eq_true, Option.isNone_iff_eq_none, and_assoc]

theorem fillMatch_length (nm : Option String) (tp : Option ℚ) (est lo hi : ℝ)
    (unit : Option String) :
    ∀ efs : List EffRec, (fillMatch nm tp est lo hi unit efs).1.length = efs.length
  | [] => rfl
  | e :: rest => by
    unfold fillMatch
    split
    · simp
    · simp [fillMatch_length nm tp est lo hi unit rest]

theorem fillMatch_attached (nm : Option String) (tp : Option ℚ) (est lo hi : ℝ)
    (unit : Option String) :
    ∀ efs : List EffRec,
      ((fillMatch nm tp est lo hi unit efs).2 = false ↔
        ∀ e ∈ efs, ¬fillCond nm tp e)
  | [] => by simp [fillMatch]
  | e :: rest => by
    unfold fillMatch
    split
    · rename_i hc
      simp only [List.mem_cons]
      constructor
      · intro h
        exact absurd h (by simp)
      · intro h
        exact absurd ((fillCond_iff nm tp e).mp hc) (h e (Or.inl rfl))
    · rename_i hc
      have he : ¬fillCond nm tp e := fun hP => hc ((fillCond_iff nm tp e).mpr hP)
      simp only [List.mem_cons]
      rw [fillMatch_attached nm tp est lo hi unit rest]
      constructor
      · intro h x hx
        rcases hx with rfl | hx
        · exact he
        · exact h x hx
      · intro h x hx
        exact h x (Or.inr hx)

theorem fillMatch_no_match (nm : Option String) (tp : Option ℚ) (est lo hi : ℝ)
    (unit : Option String) :
    ∀ efs : List EffRec, (∀ e ∈ efs, ¬fillCond nm tp e) →
      fillMatch nm tp est lo hi unit efs = (efs, false)
  | [], _ => rfl
  | e :: rest, h => by
    unfold fillMatch
    rw [if_neg (fun hc =>
      h e (List.mem_cons_self e rest) ((fillCond_iff nm tp e).mp hc))]
    rw [fillMatch_no_match nm tp est lo hi unit rest
      (fun x hx => h x (List.mem_cons_of_mem _ hx))]

theorem fillMatch_get? (nm : Option String) (tp : Option ℚ) (est lo hi : ℝ)
    (unit : Option String) :
    ∀ (efs : List EffRec) (i : ℕ) (e e' : EffRec),
      efs.get? i = some e →
      (fillMatch nm tp est lo hi unit efs).1.get? i = some e' →
      e' ≠ e →
      fillCond nm tp e ∧ (e.estimate ≠ none → e'.estimate = e.estimate)
  | [], i, e, e', he, _, _ => by simp at he
  | f :: rest, i, e, e', he, he', hne => by
    by_cases hc : (matchesKey nm tp f && f.ci_low.isNone && f.ci_high.isNone) = true
    · have hfm : fillMatch nm tp est lo hi unit (f :: rest) =
          (fillRec est lo hi unit f :: rest, true) := by
        unfold fillMatch
        rw [if_pos hc]
      rw [hfm] at he'
      match i, he, he' with
      | 0, he, he' =>
        obtain rfl : f = e := by simpa using he
        obtain rfl : fillRec est lo hi unit f = e' := by simpa using he'
        refine ⟨(fillCond_iff nm tp f).mp hc, fun hest => ?_⟩
        have hno : f.estimate.isNone = false := by
          cases hh : f.estimate with
          | none => exact absurd hh hest
          | some _ => rfl
        simp [fillRec, hno]
      | i + 1, he, he' =>
        rw [List.get?_cons_succ] at he he'
        rw [he] at he'
        exact absurd (Option.some.inj he').symm hne
    · have hfm : fillMatch nm tp est lo hi unit (f :: rest) =
          (f :: (fillMatch nm tp est lo hi unit rest).1,
            (fillMatch nm tp est lo hi unit rest).2) := by
        simp only [fillMatch]
        rw [if_neg hc]
      rw [hfm] at he'
      match i, he, he' with
      | 0, he, he' =>
        obtain rfl : f = e := by simpa using he
        obtain rfl : f = e' := by simpa using he'
        exact absurd rfl hne
      | i + 1, he, he' =>
        exact fillMatch_get? nm tp est lo hi unit rest i e e'
          (by simpa using he) (by simpa using he') hne

end ImputerLemmas

/-- C7 (counterexample): with a matching effect record present whose CI
bounds are already populated, the pass still appends a new record - so "a
new record is appended exactly when no matching effect record exists" is
false - and the appended note reads "Effect computed from raw (unadjusted)",
not "computed from raw (unadjusted)". -/
theorem C7_counterexample :
    (∀ e ∈ c7_efs, matchesKey (some "A") none e = true) ∧
    imputeKey (some "A") none 3 0 6 none c7_efs =
      c7_efs ++ [newRec (some "A") none 3 0 6 none] ∧
    (newRec (some "A") none 3 0 6 none).notes =
      some "Effect computed from raw (unadjusted)" := by
  have hfm : fillMatch (some "A") none 3 0 6 none c7_efs = (c7_efs, false) := by
    apply fillMatch_no_match
    intro e he
    simp only [c7_efs, List.mem_singleton] at he
    subst he
    rintro ⟨-, h, -⟩
    simp at h
  refine ⟨?_, ?_, rfl⟩
  · intro e he
    simp only [c7_efs, List.mem_singleton] at he
    subst he
    decide
  · unfold imputeKey
    rw [hfm]
    simp

/-- C7 (amended): the fill step never touches a record with a non-null
bound, fills both bounds only when both are null, fills the estimate only
when it is also null, and a new record (type MD, adjusted false, note
"Effect computed from raw (unadjusted)") is appended exactly when no
matching record with both CI bounds null exists. -/
theorem C7_impute (nm : Option String) (tp : Option ℚ) (est lo hi : ℝ)
    (unit : Option String) (efs : List EffRec) :
    (fillMatch nm tp est lo hi unit efs).1.length = efs.length ∧
    (∀ (i : ℕ) (e e' : EffRec),
      efs.get? i = some e →
      (fillMatch nm tp est lo hi unit efs).1.get? i = some e' →
      e' ≠ e →
      (matchesKey nm tp e = true ∧ e.ci_low = none ∧ e.ci_high = none ∧
        (e.estimate ≠ none → e'.estimate = e.estimate))) ∧
    ((∀ e ∈ efs, ¬(matchesKey nm tp e = true ∧ e.ci_low = none ∧
        e.ci_high = none)) →
      imputeKey nm tp est lo hi unit efs =
        efs ++ [newRec nm tp est lo hi unit]) ∧
    ((∃ e ∈ efs, matchesKey nm tp e = true ∧ e.ci_low = none ∧
        e.ci_high = none) →
      (imputeKey nm tp est lo hi unit efs).length = efs.length) ∧
    ((newRec nm tp est lo hi unit).etype = some "MD" ∧
      (newRec nm tp est lo hi unit).adjusted = some false ∧
      (newRec nm tp est lo hi unit).notes =
        some "Effect computed from raw (unadjusted)") := by
  refine ⟨fillMatch_length nm tp est lo hi unit efs, ?_, ?_, ?_, rfl, rfl, rfl⟩
  · intro i e e' he he' hne
    obtain ⟨⟨hm, hl, hh⟩, hest⟩ :=
      fillMatch_get? nm tp est lo hi unit efs i e e' he he' hne
    exact ⟨hm, hl, hh, hest⟩
  · intro h
    unfold imputeKey
    rw [fillMatch_no_match nm tp est lo hi unit efs h]
    simp
  · rintro ⟨e, he, hP⟩
    have hatt : (fillMatch nm tp est lo hi unit efs).2 = true := by
      by_contra hf
      rw [Bool.not_eq_true] at hf
      exact (fillMatch_attached nm tp est lo hi unit efs).mp hf e he hP
    unfold imputeKey
    rw [hatt, if_pos rfl]
    exact fillMatch_length nm tp est lo hi unit efs

/-- Witness for C7_impute: no record matches key (name "B", null timepoint),
so a new record is appended. -/
theorem C7_impute_witness :
    imputeKey (some "B") none 1 0 2 none c7w_efs =
      c7w_efs ++ [newRec (some "B") none 1 0 2 none] := by
  apply (C7_impute (some "B") none 1 0 2 none c7w_efs).2.2.1
  intro e he
  simp only [c7w_efs, List.mem_singleton] at he
  subst he
  rintro ⟨h, -, -⟩
  simp [matchesKey] at h

section PairStatsLemmas

theorem classifiedOf_foldl_snd (expo comp : Option String) :
    ∀ (arms : List (String × RawRow))
      (acc : Option (String × RawRow) × Option (String × RawRow)),
      (∀ p ∈ arms, classify_arm (some p.1) expo comp ≠ some "control") →
      (arms.foldl
        (fun acc p =>
          if classify_arm (some p.1) expo comp == some "intervention" then
            (some p, acc.2)
          else if classify_arm (some p.1) expo comp == some "control" then
            (acc.1, some p)
          else acc)
        acc).2 = acc.2
  | [], _, _ => rfl
  | p :: rest, acc, h => by
    have hp := h p (List.mem_cons_self p rest)
    have hr := fun x hx => h x (List.mem_cons_of_mem p hx)
    simp only [List.foldl_cons]
    rw [classifiedOf_foldl_snd expo comp rest _ hr]
    by_cases hi : (classify_arm (some p.1) expo comp == some "intervention") = true
    · rw [if_pos hi]
    · rw [if_neg hi, if_neg (by simpa using hp)]

theorem classifiedOf_snd_none (arms : List (String × RawRow))
    (expo comp : Option String)
    (h : ∀ p ∈ arms, classify_arm (some p.1) expo comp ≠ some "control") :
    (classifiedOf arms expo comp).2 = none :=
  classifiedOf_foldl_snd expo comp arms (none, none) h

theorem pickArms_of_no_control (arms : List (String × RawRow))
    (expo comp : Option String)
    (h : ∀ p ∈ arms, classify_arm (some p.1) expo comp ≠ some "control") :
    pickArms arms expo comp = fallback arms expo comp := by
  have h2 := classifiedOf_snd_none arms expo comp h
  unfold pickArms
  rcases hcls : classifiedOf arms expo comp with ⟨c1, c2⟩
  rw [hcls] at h2
  simp only at h2
  subst h2
  cases c1 <;> rfl

theorem fallback_none (arms : List (String × RawRow)) (expo comp : Option String)
    (hlen : arms.length = 2)
    (h : ∀ p ∈ arms, classify_arm (some p.1) expo comp ≠ some "control") :
    fallback arms expo comp = none := by
  match arms, hlen with
  | [a, b], _ =>
    have ha := h a (by simp)
    have hb := h b (by simp)
    simp only [fallback]
    rw [if_neg (by simpa using ha), if_neg (by simpa using hb)]

end PairStatsLemmas

/-- C10: with exactly two usable arms of which neither carries a control
token or the declared comparator label, _pair_stats returns None (it never
falls back to arm order); _classify_arm returns control whenever a control
token or the non-empty comparator label occurs in the arm name, before any
intervention marker is consulted; and when both pairing attempts return
None the imputation pass leaves the effects list of that key untouched. -/
theorem C10_pair_no_fallback :
    (∀ (rows : List RawRow) (expo comp : Option String)
      (meanOf sdOf : RawRow → Option ℚ),
      (armsOf rows meanOf sdOf).length = 2 →
      (∀ p ∈ armsOf rows meanOf sdOf,
        classify_arm (some p.1) expo comp ≠ some "control") →
      pair_stats rows expo comp meanOf sdOf = none) ∧
    (∀ (arm expo comp : Option String) (tok : String), tok ∈ control_tokens →
      strContains (pyLower (arm.getD "")) tok = true →
      classify_arm arm expo comp = some "control") ∧
    (∀ (arm expo comp : Option String),
      pyLower (comp.getD "") ≠ "" →
      strContains (pyLower (arm.getD "")) (pyLower (comp.getD "")) = true →
      classify_arm arm expo comp = some "control") ∧
    (∀ (expo comp nm : Option String) (tp : Option ℚ) (rows : List RawRow)
      (efs : List EffRec),
      pair_stats rows expo comp RawRow.followup_mean RawRow.followup_sd = none →
      pair_stats rows expo comp RawRow.change_mean RawRow.change_sd = none →
      imputeKeyStep expo comp nm tp rows efs = efs) := by
  refine ⟨?_, ?_, ?_, ?_⟩
  · intro rows expo comp meanOf sdOf hlen h
    unfold pair_stats
    rw [if_neg (by omega), pickArms_of_no_control _ _ _ h,
      fallback_none _ _ _ hlen h]
  · intro arm expo comp tok htok hcont
    unfold classify_arm
    rw [if_pos]
    rw [Bool.or_eq_true]
    exact Or.inl (List.any_eq_true.mpr ⟨tok, htok, hcont⟩)
  · intro arm expo comp hne hcont
    unfold classify_arm
    rw [if_pos]
    rw [Bool.or_eq_true]
    refine Or.inr ?_
    rw [Bool.and_eq_true]
    exact ⟨by simpa using hne, hcont⟩
  · intro expo comp nm tp rows efs h1 h2
    unfold imputeKeyStep
    rw [h1, h2]
    rfl

/-- Witness for C10_pair_no_fallback: two usable arms named "group one" and
"group two", exposure "vitamin x", no comparator - pairing yields None. -/
theorem C10_pair_no_fallback_witness :
    (armsOf c10_rows RawRow.followup_mean RawRow.followup_sd).length = 2 ∧
    pair_stats c10_rows (some "vitamin x") none RawRow.followup_mean
      RawRow.followup_sd = none := by
  have h1 : (armsOf c10_rows RawRow.followup_mean RawRow.followup_sd).length = 2 := by
    decide
  have h2 : ∀ p ∈ armsOf c10_rows RawRow.followup_mean RawRow.followup_sd,
      classify_arm (some p.1) (some "vitamin x") none ≠ some "control" := by
    decide
  exact ⟨h1, C10_pair_no_fallback.1 c10_rows (some "vitamin x") none
    RawRow.followup_mean RawRow.followup_sd h1 h2⟩

/-- C4: a group whose Ready records carry more than one distinct non-empty
unit string is rejected: note "Unit mismatch within group; skipping pooling"
and every pooled field null (NaN), whatever the estimates are. -/
theorem C4_unit_mismatch (minK : ℕ) (outcome etype : Option String)
    (g : List Effect) (h : 1 < (unitsOf (readyRows g)).length) :
    poolGroup minK outcome etype g =
      ⟨outcome, etype, (readyRows g).length, .nan, .nan, .nan, .nan, .nan, none,
        "Unit mismatch within group; skipping pooling"⟩ := by
  have huc : unit_consistent (readyRows g) = (false, none) := by
    unfold unit_consistent
    rw [if_neg (by omega)]
  unfold poolGroup
  rw [huc, if_pos rfl]

/-- Witness for C4_unit_mismatch on the kg/mg group. -/
theorem C4_unit_mismatch_witness :
    1 < (unitsOf (readyRows c4_group)).length ∧
    (poolGroup 2 (some "Weight") (some "MD") c4_group).note =
      "Unit mismatch within group; skipping pooling" ∧
    (poolGroup 2 (some "Weight") (some "MD") c4_group).pooled = FloatR.nan := by
  have h : 1 < (unitsOf (readyRows c4_group)).length := by decide
  refine ⟨h, ?_, ?_⟩ <;>
    rw [C4_unit_mismatch 2 (some "Weight") (some "MD") c4_group h]

/-- C5 (code_bug): pool_groups compares the group size against the
module-level constant MIN_K (2, set only in the script block), never
against the analyzer's configured self.min_k.  An analyzer constructed
with min_k = 3 therefore still pools this unit-consistent group of two
Ready records - the emitted note is "OK", not the rejection note
"Less than min-k (3); skipping pooling" the claim requires (and when the
module is imported rather than run as a script, MIN_K is undefined and
pool_groups raises NameError). -/
theorem C5_minK_ignored :
    (readyRows c5_group).length = 2 ∧
    (poolGroup 2 (some "Weight") (some "MD") c5_group).note = "OK" ∧
    (poolGroup 2 (some "Weight") (some "MD") c5_group).note ≠
      "Less than min-k (3); skipping pooling" := by
  have huc : unit_consistent (readyRows c5_group) = (true, none) := by decide
  have hlt : ¬((readyRows c5_group).length < 2) := by decide
  have hrow : (poolGroup 2 (some "Weight") (some "MD") c5_group).note = "OK" := by
    unfold poolGroup
    rw [huc, if_neg (by decide), if_neg hlt]
    rfl
  refine ⟨by decide, hrow, ?_⟩
  rw [hrow]
  decide

/-- C8: the Hedges g synthesis fails on df <= 0 or sp2 <= 0 and otherwise
computes g = J d with SE = sqrt(Var(g)) and CI = g -+ Z SE, effect-type SMD
and unit "SD units"; identical arms give g = 0 with a CI symmetric around
zero.  (The synthesis code is not under src/; the definitions are modelled
from spec 4.2.) -/
theorem C8_hedges_g :
    (∀ (m1 s1 : ℝ) (n1 : ℕ) (m0 s0 : ℝ) (n0 : ℕ),
      hgDf n1 n0 ≤ 0 → hedges_g m1 s1 n1 m0 s0 n0 = none) ∧
    (∀ (m1 s1 : ℝ) (n1 : ℕ) (m0 s0 : ℝ) (n0 : ℕ),
      hgSp2 s1 n1 s0 n0 ≤ 0 → hedges_g m1 s1 n1 m0 s0 n0 = none) ∧
    (∀ (m1 s1 : ℝ) (n1 : ℕ) (m0 s0 : ℝ) (n0 : ℕ),
      0 < hgDf n1 n0 → 0 < hgSp2 s1 n1 s0 n0 →
      hedges_g m1 s1 n1 m0 s0 n0 =
        some ⟨hgJ n1 n0 * hgD m1 s1 n1 m0 s0 n0,
          Real.sqrt (hgVar m1 s1 n1 m0 s0 n0),
          hgJ n1 n0 * hgD m1 s1 n1 m0 s0 n0 -
            Zr * Real.sqrt (hgVar m1 s1 n1 m0 s0 n0),
          hgJ n1 n0 * hgD m1 s1 n1 m0 s0 n0 +
            Zr * Real.sqrt (hgVar m1 s1 n1 m0 s0 n0),
          "SMD", "SD units"⟩) ∧
    (∀ n1 n0 : ℕ, ((hgDf n1 n0 : ℤ) : ℝ) = (n1 : ℝ) + (n0 : ℝ) - 2) ∧
    (∀ (n : ℕ) (m s : ℝ), 2 ≤ n → s ≠ 0 →
      hedges_g m s n m s n =
        some ⟨0, Real.sqrt (hgVar m s n m s n),
          -(Zr * Real.sqrt (hgVar m s n m s n)),
          Zr * Real.sqrt (hgVar m s n m s n), "SMD", "SD units"⟩) := by
  refine ⟨?_, ?_, ?_, ?_, ?_⟩
  · intro m1 s1 n1 m0 s0 n0 h
    unfold hedges_g
    rw [if_pos h]
  · intro m1 s1 n1 m0 s0 n0 h
    unfold hedges_g
    split_ifs <;> rfl
  · intro m1 s1 n1 m0 s0 n0 h1 h2
    unfold hedges_g
    rw [if_neg (not_le.mpr h1), if_neg (not_le.mpr h2)]
  · intro n1 n0
    unfold hgDf
    push_cast
    ring
  · intro n m s hn hs
    have hdf : 0 < hgDf n n := by
      unfold hgDf
      omega
    have hdfR : ((hgDf n n : ℤ) : ℝ) = (n : ℝ) + (n : ℝ) - 2 := by
      unfold hgDf
      push_cast
      ring
    have hnR : (2 : ℝ) ≤ (n : ℝ) := by exact_mod_cast hn
    have hne : (n : ℝ) + (n : ℝ) - 2 ≠ 0 := by
      intro h
      have h2n : (n : ℝ) = 1 := by linarith
      linarith
    have hsp : hgSp2 s n s n = s ^ 2 := by
      unfold hgSp2
      rw [hdfR, div_eq_iff hne]
      ring
    have hsp_pos : 0 < hgSp2 s n s n := by
      rw [hsp]
      positivity
    have hd : hgD m s n m s n = 0 := by
      unfold hgD
      simp
    unfold hedges_g
    rw [if_neg (not_le.mpr hdf), if_neg (not_le.mpr hsp_pos), hd, mul_zero,
      zero_sub, zero_add]

/-- Witness for C8_hedges_g: identical arms with n = 20, mean 5, sd 2. -/
theorem C8_hedges_g_witness :
    (2 ≤ 20 ∧ (2:ℝ) ≠ 0) ∧
    hedges_g 5 2 20 5 2 20 =
      some ⟨0, Real.sqrt (hgVar 5 2 20 5 2 20),
        -(Zr * Real.sqrt (hgVar 5 2 20 5 2 20)),
        Zr * Real.sqrt (hgVar 5 2 20 5 2 20), "SMD", "SD units"⟩ :=
  ⟨⟨by norm_num, by norm_num⟩,
    C8_hedges_g.2.2.2.2 20 5 2 (by norm_num) (by norm_num)⟩

end MetaAnalyzer
